import Mathlib

/-
Verification of the go-easycrud / go-easyrest REST scaffolding library.

The development shallowly embeds the two layers of the repository:

* the generic registrar and request handlers of the `easycrud` package
  (`RegisterAPI`, `getAll`, `getOne`, `createOne`, `mutateOne`, `deleteOne`,
  `getSubEntity` in `api.go`), and
* the reflective GORM-backed adapter of the `gormrest` package
  (`buildDtoMap`, `copyToDto`, `copyFromDto`, `emptyWithKey`, `finder`,
  `mutate`, `create` in `gormrest/api.go`).

Go structs are embedded as association lists from field names to values,
Go struct types as lists of field descriptors carrying the `json` and
`rest` tags, and the reflective field copying is the corresponding
name-indexed copying on those lists.  External collaborators (Fiber, GORM)
are abstracted exactly where the source calls out to them: the GORM query
and save operations are universally quantified functions, and a Fiber
handler is a function from the decoded request data to a status/body pair.
Machine integers are modelled as unbounded `Int`/`Nat`; the one place the
source converts between widths (`uint64(k)` on an `int`) takes an explicit
`% 2^64`.
-/

namespace EasyCrud

/-! ## Field and type model (reflection layer) -/

/-- Semantic type of a Go struct field: the three field kinds the library's
key handling distinguishes (`CanInt`, `CanUint`, string) plus named struct
types (nominal, identified by name). -/
inductive FTy where
  | str
  | int
  | uint
  | named (n : String)
  deriving DecidableEq, Repr

/-- Value of a Go struct field.  Values of named struct types are kept
opaque: a type name together with an abstract payload. -/
inductive FVal where
  | str (s : String)
  | int (n : Int)
  | uint (n : Nat)
  | box (ty : String) (payload : Nat)
  deriving DecidableEq, Repr

/-- Descriptor of one Go struct field: name, semantic type, exportedness,
whether its `json` tag is exactly "-" (`Tag.Get("json") == "-"`), and the
raw `rest` tag string (checked with `strings.Contains` for "key"/"child"). -/
structure Field where
  name : String
  ty : FTy
  exported : Bool
  jsonDash : Bool
  restTag : String
  deriving DecidableEq, Repr

/-- Descriptor of a Go struct type.  Go types are nominal, so the type name
takes part in type identity (`reflect.Type` equality). -/
structure GoType where
  tyName : String
  fields : List Field
  deriving DecidableEq, Repr

/-- Reflect type of `gorm.Model`, which `buildDtoMap` skips explicitly. -/
def gormModelTy : FTy := FTy.named "gorm.Model"

/-- Runtime struct value: an association list from field names to values,
in declaration order. -/
abbrev StructVal := List (String × FVal)

/-- Names of the fields of a struct type descriptor. -/
def fnames (fs : List Field) : List String := fs.map Field.name

/-- Names of the fields of a struct value. -/
def vnames (v : StructVal) : List String := v.map Prod.fst

/-- Well-formedness of a struct value for a struct type: it carries exactly
the declared fields, in order. -/
def wfVal (T : GoType) (v : StructVal) : Prop := vnames v = fnames T.fields

/-- Field access (`reflect.Value.FieldByIndex` read, keyed by name here). -/
def getF (v : StructVal) (n : String) : FVal :=
  match v.find? (fun p => p.1 == n) with
  | some p => p.2
  | none => FVal.str ""

/-- Field update (`reflect.Value.Set` on the field named `n`). -/
def setF (v : StructVal) (n : String) (x : FVal) : StructVal :=
  v.map (fun p => if p.1 = n then (n, x) else p)

/-- Zero value of a field type (Go zero value). -/
def zeroOf : FTy → FVal
  | FTy.str => FVal.str ""
  | FTy.int => FVal.int 0
  | FTy.uint => FVal.uint 0
  | FTy.named t => FVal.box t 0

/-- Zero value of a struct type (a fresh `T` in Go). -/
def zeroVal (T : GoType) : StructVal := T.fields.map (fun f => (f.name, zeroOf f.ty))

/-! ## Small string helpers (Go `strings`/`strconv`) -/

/-- Test whether `pat` is a prefix of `s` (character lists). -/
def charsPrefix : List Char → List Char → Bool
  | [], _ => true
  | _ :: _, [] => false
  | a :: as, b :: bs => a = b && charsPrefix as bs

/-- Test whether `pat` occurs as a substring of `hay` (character lists),
mirroring Go `strings.Contains`. -/
def charsContains : List Char → List Char → Bool
  | [], pat => charsPrefix pat []
  | h :: rest, pat => charsPrefix pat (h :: rest) || charsContains rest pat

/-- Go `strings.Contains s pat`. -/
def strContains (s pat : String) : Bool := charsContains s.data pat.data

/-- Parse a non-empty all-digit character list as a natural number. -/
def parseDigitsAux : List Char → Nat → Option Nat
  | [], acc => some acc
  | c :: rest, acc =>
    if c.isDigit then parseDigitsAux rest (acc * 10 + (c.toNat - '0'.toNat)) else none

/-- Parse a non-empty all-digit character list; `none` on empty input. -/
def parseDigits : List Char → Option Nat
  | [] => none
  | c :: rest => parseDigitsAux (c :: rest) 0

/-- Go `strconv.Atoi`: optional sign followed by at least one digit.
(The 64-bit range check of the Go implementation is not modelled; keys in
this development stay far below the bound.) -/
def atoi (s : String) : Option Int :=
  match s.data with
  | '+' :: rest => (parseDigits rest).map (fun n => (n : Int))
  | '-' :: rest => (parseDigits rest).map (fun n => -(n : Int))
  | l => (parseDigits l).map (fun n => (n : Int))

/-- Go `strconv.Itoa` on an `Int`. -/
def itoa (n : Int) : String := toString n

/-! ## buildDtoMap (field correspondence construction) -/

/-- Lookup of a struct field by name (`reflect.Type.FieldByName`). -/
def findField (fs : List Field) (n : String) : Option Field :=
  fs.find? (fun f => f.name == n)

/-- Mapping between the storage type and DTO type produced once per
registration by `buildDtoMap`.  `links` holds the names of the mapped
fields (the source stores a pair of index paths per link; the two sides of
every link carry the same field name, so one name suffices here).
`objKey`/`dtoKey` name the key field on each side, `children` the fields
tagged `rest:"child"`, and `dT`/`tT` are the two reflect types. -/
structure dtoMap where
  links : List String
  objKey : String
  dtoKey : String
  children : List String
  dT : GoType
  tT : GoType
  deriving DecidableEq, Repr

/-- First loop of `buildDtoMap`: for every exported DTO field that is not
`json:"-"` and not of type `gorm.Model`, require a same-named,
same-typed storage field and record the link; a missing or mismatched
field is a startup panic, embedded as `Except.error`. -/
def buildLinks (tFields : List Field) : List Field → Except String (List String)
  | [] => Except.ok []
  | dF :: rest =>
    if dF.exported && !dF.jsonDash && dF.ty != gormModelTy then
      match findField tFields dF.name with
      | none => Except.error ("Missing dto field " ++ dF.name)
      | some tF =>
        if tF.ty != dF.ty then
          Except.error ("Mismatched types on " ++ dF.name)
        else
          match buildLinks tFields rest with
          | Except.error e => Except.error e
          | Except.ok ls => Except.ok (dF.name :: ls)
    else buildLinks tFields rest

/-- Second loop of `buildDtoMap`: scan the exported storage fields for
`rest` tags.  A tag containing "key" selects the key field (the last such
field wins, and the DTO must have a same-named field or registration
panics); a tag containing "child" appends the field to the child list. -/
def tagScan (dT : GoType) : List Field → Option String → List String →
    Except String (Option String × List String)
  | [], key, ch => Except.ok (key, ch)
  | tF :: rest, key, ch =>
    if tF.exported then
      if strContains tF.restTag "key" then
        match findField dT.fields tF.name with
        | none => Except.error ("Key field " ++ tF.name ++ " missing on Dto type " ++ dT.tyName)
        | some _ =>
          tagScan dT rest (some tF.name)
            (if strContains tF.restTag "child" then ch ++ [tF.name] else ch)
      else
        tagScan dT rest key
          (if strContains tF.restTag "child" then ch ++ [tF.name] else ch)
    else tagScan dT rest key ch

/-- One-off reflection over the two types (`buildDtoMap` in the source):
build the links, scan for tags, and fall back to an `ID` field on both
types when no `rest:"key"` tag is present.  Registration-time panics are
embedded as `Except.error`. -/
def buildDtoMap (tT dT : GoType) : Except String dtoMap :=
  match buildLinks tT.fields dT.fields with
  | Except.error e => Except.error e
  | Except.ok links =>
    match tagScan dT tT.fields none [] with
    | Except.error e => Except.error e
    | Except.ok (some k, ch) => Except.ok ⟨links, k, k, ch, dT, tT⟩
    | Except.ok (none, ch) =>
      match findField tT.fields "ID" with
      | none => Except.error ("No key field found and no ID field for " ++ tT.tyName)
      | some _ =>
        match findField dT.fields "ID" with
        | none => Except.error ("No key field ID found on " ++ dT.tyName)
        | some _ => Except.ok ⟨links, "ID", "ID", ch, dT, tT⟩

/-! ## DTO converters -/

/-- Copy, for each link, the field named `n` from `src` into `acc`
(the loop shared by `copyToDto` and `copyFromDto`). -/
def applyLinks (links : List String) (src : StructVal) (acc : StructVal) : StructVal :=
  links.foldl (fun a n => setF a n (getF src n)) acc

/-- Projection of a storage value onto the DTO type (`copyToDto`): if the
two reflect types are identical the value is returned unchanged; otherwise
each linked field is copied from the entity into a zero DTO value. -/
def copyToDto (m : dtoMap) (inp : StructVal) : StructVal :=
  if m.tT = m.dT then inp
  else applyLinks m.links inp (zeroVal m.dT)

/-- Application of a DTO value onto a base entity (`copyFromDto`): the key
field is copied first, then every linked field; all other storage fields
keep their previous value. -/
def copyFromDto (m : dtoMap) (out inp : StructVal) : StructVal :=
  applyLinks m.links inp (setF out m.objKey (getF inp m.dtoKey))

/-! ## GORM-backed adapter (`gormrest`) -/

/-- Template entity with only the key field set (`emptyWithKey`): the path
key string is converted according to the key field's kind — `Atoi` for
int/uint kinds (parse failure is an error), pass-through for strings.  The
`uint64(k)` conversion of the source is the explicit `% 2^64`. -/
def emptyWithKey (tT : GoType) (m : dtoMap) (key : String) : Except String StructVal :=
  match findField tT.fields m.objKey with
  | none => Except.error ("key field " ++ m.objKey ++ " not found")
  | some kf =>
    match kf.ty with
    | FTy.int =>
      match atoi key with
      | none => Except.error ("key value " ++ key ++ " is not an int")
      | some k => Except.ok (setF (zeroVal tT) m.objKey (FVal.int k))
    | FTy.uint =>
      match atoi key with
      | none => Except.error ("key value " ++ key ++ " is not a uint")
      | some k => Except.ok (setF (zeroVal tT) m.objKey (FVal.uint ((k % (2 : Int) ^ 64).toNat)))
    | _ => Except.ok (setF (zeroVal tT) m.objKey (FVal.str key))

/-- Single-item lookup (`finder`): build the keyed template, returning
not-found on a key parse error, else run the GORM query (abstracted as
`dbFind`, the `Preload(...).Limit(1).Find(&item, &item)` call, whose error
or zero-row outcomes are its `none`). -/
def finder (tT : GoType) (m : dtoMap) (dbFind : StructVal → Option StructVal)
    (key : String) : Option StructVal :=
  match emptyWithKey tT m key with
  | Except.error _ => none
  | Except.ok item => dbFind item

/-- String rendering of the incoming DTO key value inside `create`:
`strconv.Itoa(int(key.Int()))` / `strconv.Itoa(int(key.Uint()))` /
`key.String()` depending on the field kind. -/
def keyToString : FVal → String
  | FVal.int n => itoa n
  | FVal.uint n => itoa (n : Int)
  | FVal.str s => s
  | FVal.box t _ => "<" ++ t ++ " Value>"

/-- Mutation path (`mutate`): apply the DTO onto the located entity and
persist via the GORM save (abstracted as `save`, returning the new store
state and an optional error).  Returns the store, the persisted entity and
the error. -/
def mutateG {σ : Type} (m : dtoMap) (save : σ → StructVal → σ × Option String)
    (db : σ) (orig edit : StructVal) : σ × StructVal × Option String :=
  let o := copyFromDto m orig edit
  let r := save db o
  (r.1, o, r.2)

/-- Creation path (`create`): render the DTO's key field as a string, fail
with the missing-key error when it is empty, otherwise build the keyed
template and run the mutate path. -/
def createG {σ : Type} (tT : GoType) (m : dtoMap) (save : σ → StructVal → σ × Option String)
    (db : σ) (edit : StructVal) : σ × Except String StructVal :=
  let keyString := keyToString (getF edit m.dtoKey)
  if keyString = "" then (db, Except.error "missing key value")
  else
    match emptyWithKey tT m keyString with
    | Except.error e => (db, Except.error e)
    | Except.ok ret =>
      let r := mutateG m save db ret edit
      match r.2.2 with
      | some e => (r.1, Except.error e)
      | none => (r.1, Except.ok r.2.1)

/-! ## Generic registrar and request handlers (`easycrud` `api.go`) -/

/-- Operation kind passed to the validator (`Action` constants). -/
inductive Action where
  | getAll
  | getOne
  | mutate
  | create
  | delete
  deriving DecidableEq, Repr

/-- Go slice, distinguishing the nil slice from a non-nil one: `json.Marshal`
renders a nil slice as `null` and a non-nil empty slice as `[]`. -/
abbrev GoSlice (α : Type) := Option (List α)

/-- Go `append` on a possibly-nil slice. -/
def goAppend {α : Type} : GoSlice α → α → GoSlice α
  | none, x => some [x]
  | some l, x => some (l ++ [x])

/-- Read-only sub-entity accessor (`SubEntity`): sub-path plus getter.  The
getter produces a `[]any`, embedded as a `GoSlice` of opaque field values. -/
structure SubEntity (T : Type) where
  subPath : String
  get : T → GoSlice FVal

/-- The easycrud `Api` record: operation callbacks (optional ones are
`Option`), the DTO projector, and the optional validator.  The variadic
`item ...T` argument of the Go validator is the `Option T` argument here
(the source calls it with zero or one item); the opaque `fiber.Ctx`
argument carries no information used by this layer and is dropped. -/
structure Api (T D : Type) where
  path : String
  find : String → Option T
  findAll : List T
  mutate : Option (T → D → Except String T)
  create : Option (D → Except String T)
  delete : Option (T → Except String T)
  subEntities : List (SubEntity T)
  dto : T → D
  validator : Option (Action → Option T → Bool)

/-- Response body of a handler. -/
inductive Body (D : Type) where
  | empty
  | json (d : D)
  | jsonSlice (s : GoSlice D)
  | jsonAny (s : GoSlice FVal)
  | text (s : String)
  deriving DecidableEq, Repr

/-- HTTP response: status code and body. -/
structure Response (D : Type) where
  status : Nat
  body : Body D
  deriving DecidableEq, Repr

/-- Outcome of running a handler: a response, or a runtime panic from
invoking a nil callback. -/
inductive HResult (D : Type) where
  | ok (r : Response D)
  | nilCallPanic
  deriving DecidableEq, Repr

/-- The guard `api.Validator != nil && !api.Validator(c, action, item...)`
used by every handler. -/
def denies {T : Type} (v : Option (Action → Option T → Bool)) (a : Action) (it : Option T) : Bool :=
  match v with
  | some f => !f a it
  | none => false

/-- Validator which is absent or allows every request. -/
def validatorAllows {T : Type} (v : Option (Action → Option T → Bool)) : Prop :=
  v = none ∨ ∃ f, v = some f ∧ ∀ a it, f a it = true

/-- Handler of `GET /` (`getAll`): permission check, then the collected
DTOs; the collection loop appends to a nil Go slice, so an empty result
stays the nil slice. -/
def getAll {T D : Type} (api : Api T D) : Response D :=
  if denies api.validator Action.getAll none then ⟨401, Body.empty⟩
  else ⟨200, Body.jsonSlice (api.findAll.foldl (fun a v => goAppend a (api.dto v)) none)⟩

/-- Handler of `GET /:id` (`getOne`): find first; when not found, a denying
validator yields 401 before the 404 is revealed; when found, a denying
validator yields 401, else the DTO. -/
def getOne {T D : Type} (api : Api T D) (id : String) : Response D :=
  match api.find id with
  | none =>
    if denies api.validator Action.getOne none then ⟨401, Body.empty⟩
    else ⟨404, Body.empty⟩
  | some item =>
    if denies api.validator Action.getOne (some item) then ⟨401, Body.empty⟩
    else ⟨200, Body.json (api.dto item)⟩

/-- Handler of `POST /` (`createOne`): parse the body (malformed ⇒ 400),
then the permission check, then the Create callback (error ⇒ 500).  The
body argument is the outcome of `c.BodyParser` (`none` = parse error).
The handler calls `api.Create` without a nil check. -/
def createOne {T D : Type} (api : Api T D) (body : Option D) : HResult D :=
  match body with
  | none => HResult.ok ⟨400, Body.empty⟩
  | some amended =>
    if denies api.validator Action.create none then HResult.ok ⟨401, Body.empty⟩
    else
      match api.create with
      | none => HResult.nilCallPanic
      | some f =>
        match f amended with
        | Except.error _ => HResult.ok ⟨500, Body.empty⟩
        | Except.ok item => HResult.ok ⟨200, Body.json (api.dto item)⟩

/-- Handler of `PUT /:id` (`mutateOne`): parse the body (malformed ⇒ 400),
find the item (not-found ⇒ 401 when denied, else 404), permission check,
then the Mutate callback (error ⇒ 500). -/
def mutateOne {T D : Type} (api : Api T D) (body : Option D) (id : String) : HResult D :=
  match body with
  | none => HResult.ok ⟨400, Body.empty⟩
  | some amended =>
    match api.find id with
    | none =>
      if denies api.validator Action.mutate none then HResult.ok ⟨401, Body.empty⟩
      else HResult.ok ⟨404, Body.empty⟩
    | some item =>
      if denies api.validator Action.mutate (some item) then HResult.ok ⟨401, Body.empty⟩
      else
        match api.mutate with
        | none => HResult.nilCallPanic
        | some f =>
          match f item amended with
          | Except.error _ => HResult.ok ⟨500, Body.empty⟩
          | Except.ok item2 => HResult.ok ⟨200, Body.json (api.dto item2)⟩

/-- Handler of `DELETE /:id` (`deleteOne`): find (not-found ⇒ 401 when
denied, else 404), permission check, Delete callback (error ⇒ 500), then
the plain-text confirmation. -/
def deleteOne {T D : Type} (api : Api T D) (id : String) : HResult D :=
  match api.find id with
  | none =>
    if denies api.validator Action.delete none then HResult.ok ⟨401, Body.empty⟩
    else HResult.ok ⟨404, Body.empty⟩
  | some item =>
    if denies api.validator Action.delete (some item) then HResult.ok ⟨401, Body.empty⟩
    else
      match api.delete with
      | none => HResult.nilCallPanic
      | some f =>
        match f item with
        | Except.error _ => HResult.ok ⟨500, Body.empty⟩
        | Except.ok _ => HResult.ok ⟨200, Body.text "deleted"⟩

/-- Handler of `GET /:id/<subPath>` (`getSubEntity`): same locate/authorize
shape as `getOne` (it passes `ActionGetOne`), then the child list. -/
def getSubEntity {T D : Type} (api : Api T D) (getter : T → GoSlice FVal) (id : String) :
    Response D :=
  match api.find id with
  | none =>
    if denies api.validator Action.getOne none then ⟨401, Body.empty⟩
    else ⟨404, Body.empty⟩
  | some item =>
    if denies api.validator Action.getOne (some item) then ⟨401, Body.empty⟩
    else ⟨200, Body.jsonAny (getter item)⟩

/-! ## Route installation (`RegisterAPI` / `RegisterApi`) -/

/-- HTTP verb of an installed route. -/
inductive Verb where
  | get
  | post
  | put
  | delete
  deriving DecidableEq, Repr

/-- An installed route: verb and path pattern under the resource group. -/
structure Route where
  verb : Verb
  pattern : String
  deriving DecidableEq, Repr

/-- Routes installed by `RegisterAPI`, in source order: `GET /` always;
`POST /` when the Mutate callback is present (the source gates the create
route on `Mutate`, not `Create`); the sub-entity getters; `GET /:id`
always; `PUT /:id` when Mutate is present; `DELETE /:id` when Delete is
present. -/
def registerRoutes {T D : Type} (api : Api T D) : List Route :=
  [⟨Verb.get, "/"⟩]
    ++ (if api.mutate.isSome then [⟨Verb.post, "/"⟩] else [])
    ++ api.subEntities.map (fun s => ⟨Verb.get, "/:id/" ++ s.subPath⟩)
    ++ [⟨Verb.get, "/:id"⟩]
    ++ (if api.mutate.isSome then [⟨Verb.put, "/:id"⟩] else [])
    ++ (if api.delete.isSome then [⟨Verb.delete, "/:id"⟩] else [])

/-- Option processing of the gormrest `RegisterApi`: starting from the
fully populated `Api`, the Delete/Mutate/Create callbacks are set to nil
for each disabled option before `RegisterAPI` runs. -/
def restrictApi {T D : Type} (delB mutB creB : Bool) (api : Api T D) : Api T D :=
  { api with
    delete := if delB then api.delete else none
    mutate := if mutB then api.mutate else none
    create := if creB then api.create else none }

deriving instance DecidableEq for Except

/-! ## Concrete fixtures used by witnesses and counterexamples -/

/-- Storage type of the spec scenario: `{Key string (rest key), A int, B int}`. -/
def tKAB : GoType :=
  ⟨"Item", [⟨"Key", FTy.str, true, false, "key"⟩, ⟨"A", FTy.int, true, false, ""⟩,
    ⟨"B", FTy.int, true, false, ""⟩]⟩

/-- Transport type of the spec scenario: `{Key string, A int}`. -/
def dKAB : GoType :=
  ⟨"ItemDto", [⟨"Key", FTy.str, true, false, ""⟩, ⟨"A", FTy.int, true, false, ""⟩]⟩

/-- Field map `buildDtoMap` produces for `tKAB`/`dKAB`. -/
def mKAB : dtoMap := ⟨["Key", "A"], "Key", "Key", [], dKAB, tKAB⟩

/-- Existing entity of the scenario, with `B = 9`. -/
def eKAB : StructVal := [("Key", FVal.str "k0"), ("A", FVal.int 1), ("B", FVal.int 9)]

/-- Incoming transport value of the scenario, with `A = 5`. -/
def dvKAB : StructVal := [("Key", FVal.str "k1"), ("A", FVal.int 5)]

/-- Transport value whose string key field is empty. -/
def editEmptyKey : StructVal := [("Key", FVal.str ""), ("A", FVal.int 7)]

/-- Type used as both storage and transport, with a `json:"-"` field. -/
def tSec : GoType :=
  ⟨"Sec", [⟨"Key", FTy.str, true, false, "key"⟩, ⟨"Secret", FTy.int, true, true, ""⟩]⟩

/-- Field map `buildDtoMap` produces for `tSec`/`tSec` (the excluded field
is not linked). -/
def mSec : dtoMap := ⟨["Key"], "Key", "Key", [], tSec, tSec⟩

/-- Stored entity with `Secret = 9`. -/
def eSec : StructVal := [("Key", FVal.str "a"), ("Secret", FVal.int 9)]

/-- Incoming transport value with `Secret = 5`. -/
def dSec : StructVal := [("Key", FVal.str "a"), ("Secret", FVal.int 5)]

/-- Type with an integer key field. -/
def tIntKey : GoType := ⟨"TI", [⟨"ID", FTy.int, true, false, "key"⟩]⟩

/-- Field map `buildDtoMap` produces for `tIntKey`/`tIntKey`. -/
def mIntKey : dtoMap := ⟨["ID"], "ID", "ID", [], tIntKey, tIntKey⟩

/-- Transport value whose integer key field is zero. -/
def editZero : StructVal := [("ID", FVal.int 0)]

/-- Toy persistence layer: appending save that never fails. -/
def saveIns : List StructVal → StructVal → List StructVal × Option String :=
  fun db v => (db ++ [v], none)

/-- Minimal `Api` over `Nat` with no optional callbacks and no validator. -/
def emptyApiN : Api Nat Nat :=
  { path := "t", find := fun _ => none, findAll := [], mutate := none, create := none,
    delete := none, subEntities := [], dto := fun t => t, validator := none }

/-- The minimal `Api` with a validator that denies every request. -/
def apiDenyN : Api Nat Nat := { emptyApiN with validator := some (fun _ _ => false) }

/-- An `Api` with all three optional callbacks present. -/
def apiFullN : Api Nat Nat :=
  { emptyApiN with
    mutate := some (fun t _ => Except.ok t)
    create := some (fun _ => Except.ok 0)
    delete := some (fun t => Except.ok t) }

/-- An `Api` with Mutate present but Create absent, like the `editOnlyApi`
of the repository's tests. -/
def apiEditOnlyN : Api Nat Nat := { emptyApiN with mutate := some (fun t _ => Except.ok t) }

/-- Minimal `Api` over struct values. -/
def emptyApiS : Api StructVal StructVal :=
  { path := "t", find := fun _ => none, findAll := [], mutate := none, create := none,
    delete := none, subEntities := [], dto := fun t => t, validator := none }

/-- An `Api` whose Find is the gormrest `finder` over the integer-keyed
type, with an empty backing store. -/
def apiIntFind : Api StructVal StructVal :=
  { emptyApiS with find := finder tIntKey mIntKey (fun _ => none) }

/-- An `Api` whose Create is the gormrest `create` over the string-keyed
scenario type, with an empty backing store. -/
def apiCreateKAB : Api StructVal StructVal :=
  { emptyApiS with create := some (fun d => (createG tKAB mKAB saveIns [] d).2) }

/-! ## Helper lemmas: field access and update -/

theorem setF_cons (q : String × FVal) (v : StructVal) (n : String) (x : FVal) :
    setF (q :: v) n x = (if q.1 = n then (n, x) else q) :: setF v n x := rfl

theorem getF_cons (q : String × FVal) (v : StructVal) (n : String) :
    getF (q :: v) n = if q.1 = n then q.2 else getF v n := by
  by_cases h : q.1 = n
  · simp [getF, List.find?_cons_of_pos, h]
  · simp [getF, List.find?_cons_of_neg, h]

theorem vnames_setF (v : StructVal) (n : String) (x : FVal) :
    vnames (setF v n x) = vnames v := by
  induction v with
  | nil => rfl
  | cons p t ih =>
    rw [setF_cons]
    by_cases h : p.1 = n
    · simp only [vnames, List.map_cons] at ih ⊢
      simp [h, ih]
    · simp only [vnames, List.map_cons] at ih ⊢
      simp [h, ih]

theorem getF_setF_self (v : StructVal) (n : String) (x : FVal) (h : n ∈ vnames v) :
    getF (setF v n x) n = x := by
  induction v with
  | nil => simp [vnames] at h
  | cons p t ih =>
    rw [setF_cons]
    by_cases hp : p.1 = n
    · simp [getF_cons, hp]
    · rw [if_neg hp, getF_cons, if_neg hp]
      apply ih
      simp only [vnames, List.map_cons, List.mem_cons] at h
      rcases h with h | h
      · exact absurd h.symm hp
      · exact h

theorem getF_setF_ne (v : StructVal) (n m : String) (x : FVal) (h : m ≠ n) :
    getF (setF v n x) m = getF v m := by
  induction v with
  | nil => rfl
  | cons p t ih =>
    rw [setF_cons]
    by_cases hp : p.1 = n
    · rw [if_pos hp, getF_cons, getF_cons, hp, if_neg (fun hmn => h hmn.symm), if_neg h.symm]
      exact ih
    · rw [if_neg hp, getF_cons, getF_cons]
      by_cases hm : p.1 = m
      · rw [if_pos hm, if_pos hm]
      · rw [if_neg hm, if_neg hm]
        exact ih

theorem vnames_zeroVal (T : GoType) : vnames (zeroVal T) = fnames T.fields := by
  simp [vnames, zeroVal, fnames, List.map_map, Function.comp]

/-! ## Helper lemmas: the link-copying loop -/

theorem applyLinks_cons (n : String) (ls : List String) (src acc : StructVal) :
    applyLinks (n :: ls) src acc = applyLinks ls src (setF acc n (getF src n)) := rfl

theorem vnames_applyLinks (ls : List String) (src acc : StructVal) :
    vnames (applyLinks ls src acc) = vnames acc := by
  induction ls generalizing acc with
  | nil => rfl
  | cons a ls ih => rw [applyLinks_cons, ih, vnames_setF]

theorem getF_applyLinks_of_not_mem (ls : List String) (src acc : StructVal) (n : String)
    (h : n ∉ ls) : getF (applyLinks ls src acc) n = getF acc n := by
  induction ls generalizing acc with
  | nil => rfl
  | cons a ls ih =>
    rw [applyLinks_cons, ih _ (fun hm => h (List.mem_cons_of_mem _ hm))]
    exact getF_setF_ne _ _ _ _
      (fun he : n = a => h (by rw [he]; exact List.mem_cons_self a ls))

theorem getF_applyLinks_of_mem (ls : List String) (src acc : StructVal) (n : String)
    (hmem : n ∈ ls) (hin : n ∈ vnames acc) :
    getF (applyLinks ls src acc) n = getF src n := by
  induction ls generalizing acc with
  | nil => cases hmem
  | cons a ls ih =>
    rw [applyLinks_cons]
    by_cases hl : n ∈ ls
    · exact ih _ hl (by rw [vnames_setF]; exact hin)
    · have ha : n = a := by
        rcases List.mem_cons.mp hmem with h | h
        · exact h
        · exact absurd h hl
      subst ha
      rw [getF_applyLinks_of_not_mem _ _ _ _ hl, getF_setF_self _ _ _ hin]

/-! ## Helper lemmas: buildDtoMap facts -/

theorem findField_cons (f : Field) (fs : List Field) (n : String) :
    findField (f :: fs) n = if f.name = n then some f else findField fs n := by
  by_cases h : f.name = n
  · simp [findField, List.find?_cons_of_pos, h]
  · simp [findField, List.find?_cons_of_neg, h]

theorem findField_isSome_iff (fs : List Field) (n : String) :
    (findField fs n).isSome = true ↔ n ∈ fnames fs := by
  induction fs with
  | nil => simp [findField, fnames]
  | cons f t ih =>
    rw [findField_cons]
    by_cases h : f.name = n
    · simp [h, fnames]
    · simp only [if_neg h, ih, fnames, List.map_cons, List.mem_cons]
      constructor
      · exact fun hm => Or.inr hm
      · rintro (hm | hm)
        · exact absurd hm.symm h
        · exact hm

theorem fnames_cons (f : Field) (fs : List Field) :
    fnames (f :: fs) = f.name :: fnames fs := rfl

theorem buildLinks_mem (tFs : List Field) (dFs : List Field) (ls : List String)
    (h : buildLinks tFs dFs = Except.ok ls) :
    ∀ n ∈ ls, n ∈ fnames tFs ∧ n ∈ fnames dFs := by
  induction dFs generalizing ls with
  | nil =>
    simp only [buildLinks] at h
    cases h
    intro n hn
    cases hn
  | cons dF rest ih =>
    simp only [buildLinks] at h
    split at h
    · split at h
      · cases h
      · rename_i tF hFind
        split at h
        · cases h
        · split at h
          · cases h
          · rename_i ls' hrec
            cases h
            intro n hn
            rw [fnames_cons]
            rcases List.mem_cons.mp hn with he | hn'
            · have hs : (findField tFs dF.name).isSome = true := by rw [hFind]; rfl
              rw [he]
              exact ⟨(findField_isSome_iff _ _).mp hs, List.mem_cons_self _ _⟩
            · have hr := ih ls' hrec n hn'
              exact ⟨hr.1, List.mem_cons_of_mem _ hr.2⟩
    · intro n hn
      have hr := ih ls h n hn
      rw [fnames_cons]
      exact ⟨hr.1, List.mem_cons_of_mem _ hr.2⟩

theorem tagScan_key (dT : GoType) (tFs : List Field) (key0 : Option String)
    (ch0 : List String) (k : String) (ch : List String)
    (h : tagScan dT tFs key0 ch0 = Except.ok (some k, ch)) :
    key0 = some k ∨ (k ∈ fnames tFs ∧ k ∈ fnames dT.fields) := by
  induction tFs generalizing key0 ch0 ch with
  | nil =>
    simp only [tagScan] at h
    cases h
    exact Or.inl rfl
  | cons tF rest ih =>
    simp only [tagScan] at h
    split at h
    · split at h
      · split at h
        · cases h
        · rename_i tFd hFind
          right
          rw [fnames_cons]
          rcases ih _ _ _ h with h1 | h2
          · have hk : tF.name = k := by injection h1
            have hs : (findField dT.fields tF.name).isSome = true := by rw [hFind]; rfl
            rw [← hk]
            exact ⟨List.mem_cons_self _ _, (findField_isSome_iff _ _).mp hs⟩
          · exact ⟨List.mem_cons_of_mem _ h2.1, h2.2⟩
      · rcases ih _ _ _ h with h1 | h2
        · exact Or.inl h1
        · right
          rw [fnames_cons]
          exact ⟨List.mem_cons_of_mem _ h2.1, h2.2⟩
    · rcases ih _ _ _ h with h1 | h2
      · exact Or.inl h1
      · right
        rw [fnames_cons]
        exact ⟨List.mem_cons_of_mem _ h2.1, h2.2⟩

theorem buildDtoMap_ok (tT dT : GoType) (m : dtoMap)
    (h : buildDtoMap tT dT = Except.ok m) :
    m.objKey = m.dtoKey ∧ m.tT = tT ∧ m.dT = dT ∧
    m.objKey ∈ fnames tT.fields ∧ m.dtoKey ∈ fnames dT.fields ∧
    (∀ n ∈ m.links, n ∈ fnames tT.fields ∧ n ∈ fnames dT.fields) := by
  unfold buildDtoMap at h
  split at h
  · cases h
  · rename_i links hLinks
    split at h
    · cases h
    · rename_i k ch hScan
      cases h
      rcases tagScan_key dT tT.fields none [] k ch hScan with h1 | h2
      · cases h1
      · exact ⟨rfl, rfl, rfl, h2.1, h2.2, buildLinks_mem _ _ _ hLinks⟩
    · rename_i ch hScan
      split at h
      · cases h
      · rename_i fID hID
        split at h
        · cases h
        · rename_i gID hID2
          cases h
          refine ⟨rfl, rfl, rfl, ?_, ?_, buildLinks_mem _ _ _ hLinks⟩
          · exact (findField_isSome_iff _ _).mp (by rw [hID]; rfl)
          · exact (findField_isSome_iff _ _).mp (by rw [hID2]; rfl)

/-! ## Helper lemmas: the converters -/

theorem copyFromDto_key (m : dtoMap) (e d : StructVal)
    (hkey : m.objKey = m.dtoKey) (hin : m.objKey ∈ vnames e) :
    getF (copyFromDto m e d) m.objKey = getF d m.dtoKey := by
  unfold copyFromDto
  by_cases hl : m.objKey ∈ m.links
  · rw [getF_applyLinks_of_mem _ _ _ _ hl (by rw [vnames_setF]; exact hin), hkey]
  · rw [getF_applyLinks_of_not_mem _ _ _ _ hl, getF_setF_self _ _ _ hin]

theorem copyFromDto_mapped (m : dtoMap) (e d : StructVal) (n : String)
    (hl : n ∈ m.links) (hin : n ∈ vnames e) :
    getF (copyFromDto m e d) n = getF d n := by
  unfold copyFromDto
  exact getF_applyLinks_of_mem _ _ _ _ hl (by rw [vnames_setF]; exact hin)

theorem copyFromDto_frame (m : dtoMap) (e d : StructVal) (n : String)
    (hl : n ∉ m.links) (hk : n ≠ m.objKey) :
    getF (copyFromDto m e d) n = getF e n := by
  unfold copyFromDto
  rw [getF_applyLinks_of_not_mem _ _ _ _ hl, getF_setF_ne _ _ _ _ hk]

theorem copyToDto_mapped (m : dtoMap) (v : StructVal) (n : String)
    (hl : n ∈ m.links) (hin : n ∈ fnames m.dT.fields) :
    getF (copyToDto m v) n = getF v n := by
  unfold copyToDto
  split
  · rfl
  · exact getF_applyLinks_of_mem _ _ _ _ hl (by rw [vnames_zeroVal]; exact hin)

/-! ## Claim theorems -/

/-- C1: for every single-item request (get-one, delete, child-collection)
whose resource has an authorization callback that denies, the response is
the constant 401 response, identical whatever the Find callback reports, so
identical whether or not an entity with the requested key exists; and when
the callback allows (or is absent) and the item is not found, 404 is
returned. -/
theorem claim1_deny_hides_existence {T D : Type} (api : Api T D)
    (getter : T → GoSlice FVal) (id : String) :
    (∀ v, api.validator = some v → (∀ a it, v a it = false) →
      getOne api id = ⟨401, Body.empty⟩ ∧
      deleteOne api id = HResult.ok ⟨401, Body.empty⟩ ∧
      getSubEntity api getter id = ⟨401, Body.empty⟩) ∧
    (validatorAllows api.validator → api.find id = none →
      getOne api id = ⟨404, Body.empty⟩ ∧
      deleteOne api id = HResult.ok ⟨404, Body.empty⟩ ∧
      getSubEntity api getter id = ⟨404, Body.empty⟩) := by
  constructor
  · intro v hv hd
    refine ⟨?_, ?_, ?_⟩ <;>
      · cases hfind : api.find id <;>
          simp [getOne, deleteOne, getSubEntity, denies, hv, hd, hfind]
  · intro hall hnone
    rcases hall with h | ⟨f, hf, hal⟩ <;>
      · refine ⟨?_, ?_, ?_⟩ <;>
          simp [getOne, deleteOne, getSubEntity, denies, hnone, *]

theorem claim1_witness :
    getOne apiDenyN "x" = ⟨401, Body.empty⟩ ∧
    getOne emptyApiN "x" = ⟨404, Body.empty⟩ :=
  ⟨((claim1_deny_hides_existence apiDenyN (fun _ => none) "x").1
      (fun _ _ => false) rfl (fun _ _ => rfl)).1,
    ((claim1_deny_hides_existence emptyApiN (fun _ => none) "x").2 (Or.inl rfl) rfl).1⟩

/-- C2, counterexample: registering with Create disabled (nil Create
callback) but Mutate enabled still installs the `POST /` route, because the
source gates the create route on the Mutate callback. -/
theorem claim2_cex :
    (restrictApi true true false apiFullN).create = none ∧
    Route.mk Verb.post "/" ∈ registerRoutes (restrictApi true true false apiFullN) := by
  exact ⟨rfl, by decide⟩

/-- C2, amended: disabling Mutate removes both the `POST /` and `PUT /:id`
routes, disabling Delete removes the `DELETE /:id` route, in each case
independently of the other options and of authorization; disabling Create
alone removes no route (the `POST /` route is gated on Mutate). -/
theorem claim2_amended {T D : Type} (api : Api T D) (delB mutB creB : Bool) :
    (Route.mk Verb.post "/" ∈ registerRoutes (restrictApi delB mutB creB api) ↔
      (mutB = true ∧ api.mutate.isSome = true)) ∧
    (Route.mk Verb.put "/:id" ∈ registerRoutes (restrictApi delB mutB creB api) ↔
      (mutB = true ∧ api.mutate.isSome = true)) ∧
    (Route.mk Verb.delete "/:id" ∈ registerRoutes (restrictApi delB mutB creB api) ↔
      (delB = true ∧ api.delete.isSome = true)) := by
  cases mutB <;> cases delB <;>
    rcases hm : api.mutate with _ | mf <;> rcases hd : api.delete with _ | df <;>
      simp [registerRoutes, restrictApi, hm, hd, List.mem_append, List.mem_map]

theorem claim2_witness :
    Route.mk Verb.post "/" ∉ registerRoutes (restrictApi true false true apiFullN) :=
  fun hmem => absurd ((claim2_amended apiFullN true false true).1.mp hmem).1 (by decide)

/-- C3: an Api with a Mutate callback but a nil Create callback still gets
the `POST /` route, and an authorized, well-formed POST reaches the
invocation of the nil Create callback (a runtime panic), so the create
handler returns no HTTP status there. -/
theorem claim3_nil_create_panic {T D : Type} (api : Api T D)
    (h1 : api.mutate.isSome = true) (h2 : api.create = none)
    (hv : denies api.validator Action.create none = false) (d : D) :
    Route.mk Verb.post "/" ∈ registerRoutes api ∧
    createOne api (some d) = HResult.nilCallPanic := by
  constructor
  · simp [registerRoutes, h1]
  · simp [createOne, hv, h2]

theorem claim3_witness :
    Route.mk Verb.post "/" ∈ registerRoutes apiEditOnlyN ∧
    createOne apiEditOnlyN (some 0) = HResult.nilCallPanic :=
  claim3_nil_create_panic apiEditOnlyN rfl rfl rfl 0

/-- C4: fromTransport (`copyFromDto`) overwrites the key field and every
mapped field of the base entity with the transport values and leaves every
other storage field unchanged. -/
theorem claim4_fromTransport (tT dT : GoType) (m : dtoMap)
    (hb : buildDtoMap tT dT = Except.ok m) (e d : StructVal) (he : wfVal tT e) :
    getF (copyFromDto m e d) m.objKey = getF d m.dtoKey ∧
    (∀ n ∈ m.links, getF (copyFromDto m e d) n = getF d n) ∧
    (∀ n, n ∉ m.links → n ≠ m.objKey → getF (copyFromDto m e d) n = getF e n) := by
  obtain ⟨hkey, htT, hdT, hkT, hkD, hlinks⟩ := buildDtoMap_ok tT dT m hb
  have he' : vnames e = fnames tT.fields := he
  refine ⟨?_, ?_, ?_⟩
  · exact copyFromDto_key m e d hkey (by rw [he']; exact hkT)
  · intro n hn
    exact copyFromDto_mapped m e d n hn (by rw [he']; exact (hlinks n hn).1)
  · intro n hn hk
    exact copyFromDto_frame m e d n hn hk

theorem claim4_witness :
    getF (copyFromDto mKAB eKAB dvKAB) "A" = FVal.int 5 ∧
    getF (copyFromDto mKAB eKAB dvKAB) "B" = FVal.int 9 ∧
    getF (copyFromDto mKAB eKAB dvKAB) "Key" = FVal.str "k1" := by
  have h := claim4_fromTransport tKAB dKAB mKAB rfl eKAB dvKAB rfl
  refine ⟨?_, ?_, ?_⟩
  · exact (h.2.1 "A" (by decide)).trans (by decide)
  · exact (h.2.2 "B" (by decide) (by decide)).trans (by decide)
  · exact (h.1).trans (by decide)

/-- C5, counterexample: with storage and transport both the type
`{Key string (key), Secret int (json-excluded)}`, the field `Secret` is
present on the transport type but is not reproduced by
`toTransport(fromTransport(e, d))`: the entity's 9 survives, not the
transport value's 5. -/
theorem claim5_cex :
    buildDtoMap tSec tSec = Except.ok mSec ∧
    getF dSec "Secret" = FVal.int 5 ∧
    getF (copyToDto mSec (copyFromDto mSec eSec dSec)) "Secret" = FVal.int 9 ∧
    FVal.int 9 ≠ FVal.int 5 :=
  ⟨rfl, rfl, rfl, by decide⟩

/-- C5, amended: the round-trip `toTransport(fromTransport(e, d))`
reproduces every mapped field (every field of d's type that is exported and
not JSON-excluded) unchanged, and `fromTransport` preserves every field of
e whose name is not present in d's type. -/
theorem claim5_roundtrip (tT dT : GoType) (m : dtoMap)
    (hb : buildDtoMap tT dT = Except.ok m) (e d : StructVal)
    (he : wfVal tT e) (hd : wfVal dT d) :
    (∀ n ∈ m.links, getF (copyToDto m (copyFromDto m e d)) n = getF d n) ∧
    (∀ n, n ∈ vnames e → n ∉ vnames d → getF (copyFromDto m e d) n = getF e n) := by
  obtain ⟨hkey, htT, hdT, hkT, hkD, hlinks⟩ := buildDtoMap_ok tT dT m hb
  have he' : vnames e = fnames tT.fields := he
  have hd' : vnames d = fnames dT.fields := hd
  constructor
  · intro n hn
    have h1 : getF (copyToDto m (copyFromDto m e d)) n = getF (copyFromDto m e d) n :=
      copyToDto_mapped m _ n hn (by rw [hdT]; exact (hlinks n hn).2)
    rw [h1]
    exact copyFromDto_mapped m e d n hn (by rw [he']; exact (hlinks n hn).1)
  · intro n hne hnd
    have hnl : n ∉ m.links := fun hn => hnd (by rw [hd']; exact (hlinks n hn).2)
    have hnk : n ≠ m.objKey := fun hk => hnd (by rw [hd', hk, hkey]; exact hkD)
    exact copyFromDto_frame m e d n hnl hnk

theorem claim5_witness :
    getF (copyToDto mKAB (copyFromDto mKAB eKAB dvKAB)) "A" = FVal.int 5 ∧
    getF (copyFromDto mKAB eKAB dvKAB) "B" = FVal.int 9 := by
  have h := claim5_roundtrip tKAB dKAB mKAB rfl eKAB dvKAB rfl rfl
  exact ⟨(h.1 "A" (by decide)).trans (by decide),
    (h.2 "B" (by decide) (by decide)).trans (by decide)⟩

/-- C6, counterexample: a request with a malformed body and a denying
authorization callback gets 400, not 401: both body-carrying handlers parse
the body before consulting the validator. -/
theorem claim6_cex :
    createOne apiDenyN (none : Option Nat) = HResult.ok ⟨400, Body.empty⟩ ∧
    mutateOne apiDenyN (none : Option Nat) "x" = HResult.ok ⟨400, Body.empty⟩ ∧
    (400 : Nat) ≠ 401 :=
  ⟨rfl, rfl, by decide⟩

/-- C6, amended: in the create and update handlers the Decode step precedes
the Authorize step: every request with a malformed body gets 400, whatever
the authorization callback would answer. -/
theorem claim6_decode_first {T D : Type} (api : Api T D) (id : String) :
    createOne api none = HResult.ok ⟨400, Body.empty⟩ ∧
    mutateOne api none id = HResult.ok ⟨400, Body.empty⟩ :=
  ⟨rfl, rfl⟩

theorem claim6_witness :
    createOne apiDenyN (none : Option Nat) = HResult.ok ⟨400, Body.empty⟩ :=
  (claim6_decode_first apiDenyN "x").1

/-- C7, counterexample: a create whose incoming transport value has integer
key zero does not fail with the missing-key error — the key is rendered as
the string "0", passes the emptiness check, and the save runs, changing the
store. -/
theorem claim7_cex :
    buildDtoMap tIntKey tIntKey = Except.ok mIntKey ∧
    createG tIntKey mIntKey saveIns [] editZero =
      ([[("ID", FVal.int 0)]], Except.ok [("ID", FVal.int 0)]) ∧
    (createG tIntKey mIntKey saveIns [] editZero).2 ≠
      Except.error "missing key value" ∧
    (createG tIntKey mIntKey saveIns [] editZero).1 ≠ ([] : List StructVal) :=
  ⟨rfl, rfl, by decide, by decide⟩

/-- C7, amended: a create whose incoming transport value has an empty
string key fails with the missing-key error, the store is unchanged (the
result holds for every save function, which is never invoked), and the
request surfaces as 500; integer keys are never rejected this way. -/
theorem claim7_missing_key {σ : Type} (tT : GoType) (m : dtoMap)
    (save : σ → StructVal → σ × Option String) (db : σ) (edit : StructVal)
    (api : Api StructVal StructVal)
    (hc : api.create = some (fun d => (createG tT m save db d).2))
    (hv : denies api.validator Action.create none = false)
    (hk : getF edit m.dtoKey = FVal.str "") :
    createG tT m save db edit = (db, Except.error "missing key value") ∧
    createOne api (some edit) = HResult.ok ⟨500, Body.empty⟩ := by
  have h1 : createG tT m save db edit = (db, Except.error "missing key value") := by
    simp [createG, hk, keyToString]
  refine ⟨h1, ?_⟩
  simp [createOne, hv, hc, h1]

theorem claim7_witness :
    createG tKAB mKAB saveIns [] editEmptyKey = ([], Except.error "missing key value") ∧
    createOne apiCreateKAB (some editEmptyKey) = HResult.ok ⟨500, Body.empty⟩ :=
  claim7_missing_key tKAB mKAB saveIns [] editEmptyKey apiCreateKAB rfl rfl rfl

/-- C8, counterexample: a GET on the collection path of an empty store
returns 200 with the nil slice — which `json.Marshal` renders as `null` —
and not the empty JSON array. -/
theorem claim8_cex :
    getAll emptyApiN = ⟨200, Body.jsonSlice none⟩ ∧
    Body.jsonSlice (none : GoSlice Nat) ≠ Body.jsonSlice (some []) :=
  ⟨rfl, by decide⟩

/-- C8, amended: for every resource whose find-all callback returns an
empty collection and whose authorization allows (or is absent), GET on the
collection path returns 200 with the nil slice as body, which encodes as
JSON `null` rather than an empty array. -/
theorem claim8_empty_all {T D : Type} (api : Api T D) (hempty : api.findAll = [])
    (hv : denies api.validator Action.getAll none = false) :
    getAll api = ⟨200, Body.jsonSlice none⟩ := by
  simp [getAll, hv, hempty]

theorem claim8_witness : getAll emptyApiN = ⟨200, Body.jsonSlice none⟩ :=
  claim8_empty_all emptyApiN rfl rfl

/-- C9: when the storage key field is of an integer kind and the path id
does not parse as an integer, the single-item handlers answer 404 when the
authorization callback allows (or is absent), and the get-one status is
never 400 or 500. -/
theorem claim9_int_key_parse_404 (tT : GoType) (m : dtoMap) (kf : Field)
    (hf : findField tT.fields m.objKey = some kf)
    (hty : kf.ty = FTy.int ∨ kf.ty = FTy.uint)
    (dbFind : StructVal → Option StructVal) (api : Api StructVal StructVal)
    (hfind : api.find = finder tT m dbFind) (id : String) (hid : atoi id = none) :
    (denies api.validator Action.getOne none = false →
      getOne api id = ⟨404, Body.empty⟩) ∧
    (denies api.validator Action.delete none = false →
      deleteOne api id = HResult.ok ⟨404, Body.empty⟩) ∧
    (∀ d, denies api.validator Action.mutate none = false →
      mutateOne api (some d) id = HResult.ok ⟨404, Body.empty⟩) ∧
    (getOne api id).status ≠ 400 ∧ (getOne api id).status ≠ 500 := by
  have hnone : api.find id = none := by
    rcases hty with h | h <;> simp [hfind, finder, emptyWithKey, hf, h, hid]
  refine ⟨?_, ?_, ?_, ?_, ?_⟩
  · intro hv
    simp [getOne, hnone, hv]
  · intro hv
    simp [deleteOne, hnone, hv]
  · intro d hv
    simp [mutateOne, hnone, hv]
  · by_cases hv : denies api.validator Action.getOne none <;> simp [getOne, hnone, hv]
  · by_cases hv : denies api.validator Action.getOne none <;> simp [getOne, hnone, hv]

theorem claim9_witness :
    getOne apiIntFind "one" = ⟨404, Body.empty⟩ ∧
    deleteOne apiIntFind "one" = HResult.ok ⟨404, Body.empty⟩ := by
  have h := claim9_int_key_parse_404 tIntKey mIntKey ⟨"ID", FTy.int, true, false, "key"⟩
    rfl (Or.inl rfl) (fun _ => none) apiIntFind rfl "one" rfl
  exact ⟨h.1 rfl, h.2.1 rfl⟩

/-- C10: the entity the mutate path hands to persistence is exactly
`copyFromDto orig edit`, whose key field equals the transport value's key
field — so a PUT body whose key differs from the path id re-keys the
persisted entity. -/
theorem claim10_rekey (tT dT : GoType) (m : dtoMap)
    (hb : buildDtoMap tT dT = Except.ok m) {σ : Type}
    (save : σ → StructVal → σ × Option String) (db : σ) (orig edit : StructVal)
    (he : wfVal tT orig) :
    mutateG m save db orig edit =
      ((save db (copyFromDto m orig edit)).1, copyFromDto m orig edit,
        (save db (copyFromDto m orig edit)).2) ∧
    getF (copyFromDto m orig edit) m.objKey = getF edit m.dtoKey := by
  obtain ⟨hkey, htT, hdT, hkT, hkD, hlinks⟩ := buildDtoMap_ok tT dT m hb
  have he' : vnames orig = fnames tT.fields := he
  exact ⟨rfl, copyFromDto_key m orig edit hkey (by rw [he']; exact hkT)⟩

theorem claim10_witness :
    getF (copyFromDto mKAB eKAB dvKAB) mKAB.objKey = getF dvKAB mKAB.dtoKey ∧
    getF dvKAB mKAB.dtoKey = FVal.str "k1" ∧
    getF eKAB mKAB.objKey = FVal.str "k0" ∧
    mutateG mKAB saveIns [] eKAB dvKAB =
      ([copyFromDto mKAB eKAB dvKAB], copyFromDto mKAB eKAB dvKAB, none) := by
  have h := claim10_rekey tKAB dKAB mKAB rfl saveIns [] eKAB dvKAB rfl
  refine ⟨h.2, by decide, by decide, ?_⟩
  rw [h.1]
  rfl

end EasyCrud
